import Mathlib

/-!
Shallow embedding of `src/Chapter02/Task_Tuning_Falcon.ipynb`, the notebook
that fine-tunes the `tiiuae/falcon-rw-1b` base model for binary sentence-pair
classification on GLUE/MRPC.  The embedding covers the pieces of the notebook
the verified properties are about: the `GlueDataset` wrapper (tokenization,
`__len__`, `__getitem__`), the `CustomClassifier` module and its `forward`
pass, the manual training loop, the evaluation loop, and the `torch.save`
call at the end of the run.  External framework operations (the Hugging Face
tokenizer's padding/truncation contract, PyTorch tensor indexing, module
state dicts) are modelled from their documented behaviour at exactly the
call sites the notebook uses; opaque externals (the transformer encoder, the
dropout RNG draw, the AdamW update rule) are parameters of the embedding.
Tensors are nested lists over `ℚ`; token ids are `Nat`.
-/

namespace FalconTuning

/-- Result of one tokenizer call in `GlueDataset.__init__`.  With
`return_tensors="pt"` the tokenizer returns each sequence wrapped in a
leading batch dimension of size 1, so both tensors have shape `[1, L]`. -/
structure TokenizedInput where
  inputIds : List (List Nat)
  attentionMask : List (List Nat)
deriving DecidableEq

/-- The tokenizer call
`self.tokenizer(sentence1, sentence2, padding='max_length', truncation=True,
max_length=max_length, return_tensors="pt")` issued in
`GlueDataset.__init__`.  `encode` stands for the model-specific conversion of
the sentence pair to a token-id sequence (external, opaque).  Per the
tokenizer's contract at this call site: `truncation=True` cuts the id
sequence to at most `maxLength` tokens, and `padding='max_length'`
right-pads with `padTokenId` up to exactly `maxLength` (the notebook sets
`tokenizer.pad_token = tokenizer.eos_token`).  The attention mask is 1 over
real tokens and 0 over padding. -/
def hfTokenize (encode : String → String → List Nat) (padTokenId : Nat)
    (maxLength : Nat) (sentence1 sentence2 : String) : TokenizedInput :=
  let truncated := (encode sentence1 sentence2).take maxLength
  { inputIds :=
      [truncated ++ List.replicate (maxLength - truncated.length) padTokenId]
    attentionMask :=
      [List.replicate truncated.length 1 ++
        List.replicate (maxLength - truncated.length) 0] }

/-- The state of a `GlueDataset` after `__init__`: the eagerly tokenized
`self.inputs` list and the parallel `self.labels` list. -/
structure GlueDataset where
  inputs : List TokenizedInput
  labels : List Nat
deriving DecidableEq

/-- Constructor `GlueDataset.__init__`: iterate over
`zip(raw_datasets['sentence1'], raw_datasets['sentence2'],
raw_datasets['label'])` (Python `zip` stops at the shortest column, as does
`List.zip`), tokenize each sentence pair with the padding/truncation options
of `hfTokenize`, and append the tokenized input and the label to the two
instance lists.  `max_length` defaults to 128 as in the source. -/
def GlueDataset.build (encode : String → String → List Nat) (padTokenId : Nat)
    (sentence1 sentence2 : List String) (label : List Nat)
    (maxLength : Nat := 128) : GlueDataset :=
  let rows := sentence1.zip (sentence2.zip label)
  { inputs := rows.map fun r => hfTokenize encode padTokenId maxLength r.1 r.2.1
    labels := rows.map fun r => r.2.2 }

/-- Accessor `GlueDataset.__len__`: `return len(self.inputs)`. -/
def GlueDataset.len (ds : GlueDataset) : Nat := ds.inputs.length

/-- Python list subscript `l[i]` for an integer index: a non-negative index
addresses from the front, an index in `[-len(l), -1]` addresses from the
back as `l[len(l) + i]`, and any other index raises `IndexError` (modelled
as `none`). -/
def pyGet {α : Type} (l : List α) (i : Int) : Option α :=
  if 0 ≤ i then l[i.toNat]?
  else if 0 ≤ (l.length : Int) + i then l[((l.length : Int) + i).toNat]?
  else none

/-- Operation `Tensor.squeeze(0)` as applied in `__getitem__`.  Every tensor it is
applied to there comes from `hfTokenize`, whose leading dimension is always
1, and squeezing a `[1, L]` tensor yields its single `[L]` row. -/
def squeeze0 (t : List (List Nat)) : List Nat := t.headD []

/-- One record as returned by `GlueDataset.__getitem__`: the squeezed
`input_ids` and `attention_mask` tensors plus the `labels` entry. -/
structure Item where
  inputIds : List Nat
  attentionMask : List Nat
  label : Nat
deriving DecidableEq

/-- Accessor `GlueDataset.__getitem__`: build the item from `self.inputs[idx]`
(squeezing the leading dimension of each tensor) and `self.labels[idx]`,
with Python list-subscript semantics for both accesses. -/
def GlueDataset.getitem (ds : GlueDataset) (idx : Int) : Option Item := do
  let ti ← pyGet ds.inputs idx
  let lab ← pyGet ds.labels idx
  pure { inputIds := squeeze0 ti.inputIds
         attentionMask := squeeze0 ti.attentionMask
         label := lab }

theorem pyGet_nonneg {α : Type} (l : List α) (idx : Int) (h : 0 ≤ idx) :
    pyGet l idx = l[idx.toNat]? := by
  unfold pyGet; rw [if_pos h]

theorem pyGet_neg {α : Type} (l : List α) (idx : Int) (hhi : idx < 0)
    (hlo : 0 ≤ (l.length : Int) + idx) :
    pyGet l idx = l[((l.length : Int) + idx).toNat]? := by
  unfold pyGet; rw [if_neg (by omega), if_pos hlo]

theorem pyGet_mem {α : Type} {l : List α} {i : Int} {a : α}
    (h : pyGet l i = some a) : a ∈ l := by
  unfold pyGet at h
  split at h
  · exact List.getElem?_mem h
  · split at h
    · exact List.getElem?_mem h
    · exact absurd h (by simp)

theorem hfTokenize_lengths (encode : String → String → List Nat)
    (padTokenId maxLength : Nat) (s1 s2 : String) :
    (squeeze0 (hfTokenize encode padTokenId maxLength s1 s2).inputIds).length
        = maxLength ∧
    (squeeze0 (hfTokenize encode padTokenId maxLength s1 s2).attentionMask).length
        = maxLength := by
  have h : ((encode s1 s2).take maxLength).length ≤ maxLength := by
    simp [List.length_take]
  constructor <;> simp [hfTokenize, squeeze0]

/-- Claim C1: every record retrieved from a `GlueDataset` built with a
configured `maxLength` has an `input_ids` sequence and an `attention_mask`
of length exactly `maxLength`, regardless of the original sentences. -/
theorem getitem_lengths_eq_maxLength (encode : String → String → List Nat)
    (padTokenId : Nat) (sentence1 sentence2 : List String) (label : List Nat)
    (maxLength : Nat) (idx : Int) (it : Item)
    (h : (GlueDataset.build encode padTokenId sentence1 sentence2 label
            maxLength).getitem idx = some it) :
    it.inputIds.length = maxLength ∧ it.attentionMask.length = maxLength := by
  unfold GlueDataset.getitem at h
  obtain ⟨ti, hti, h⟩ := Option.bind_eq_some.mp h
  obtain ⟨lab, hlab, h⟩ := Option.bind_eq_some.mp h
  have hit : it = { inputIds := squeeze0 ti.inputIds
                    attentionMask := squeeze0 ti.attentionMask
                    label := lab } := by
    cases h; rfl
  have hmem := pyGet_mem hti
  simp only [GlueDataset.build, List.mem_map] at hmem
  obtain ⟨r, _, hr⟩ := hmem
  rw [hit, ← hr]
  exact hfTokenize_lengths encode padTokenId maxLength r.1 r.2.1

theorem build_labels_eq (encode : String → String → List Nat)
    (padTokenId : Nat) (sentence1 sentence2 : List String) (label : List Nat)
    (maxLength : Nat)
    (h1 : sentence1.length = sentence2.length)
    (h2 : sentence2.length = label.length) :
    (GlueDataset.build encode padTokenId sentence1 sentence2 label
        maxLength).labels = label := by
  have e1 : (sentence1.zip (sentence2.zip label)).map Prod.snd
      = sentence2.zip label := by
    refine List.map_snd_zip _ _ ?_
    simp [List.length_zip]; omega
  have e2 : (sentence2.zip label).map Prod.snd = label :=
    List.map_snd_zip _ _ h2.ge
  show (sentence1.zip (sentence2.zip label)).map (fun r => r.2.2) = label
  calc (sentence1.zip (sentence2.zip label)).map (fun r => r.2.2)
      = ((sentence1.zip (sentence2.zip label)).map Prod.snd).map Prod.snd := by
        rw [List.map_map]; rfl
    _ = label := by rw [e1, e2]

/-- Claim C7: the size accessor of a dataset built from equal-length columns
returns the number of input records, and every valid index yields a record
whose label is the label of the corresponding input record. -/
theorem len_and_labels_match (encode : String → String → List Nat)
    (padTokenId : Nat) (sentence1 sentence2 : List String) (label : List Nat)
    (maxLength : Nat)
    (h1 : sentence1.length = sentence2.length)
    (h2 : sentence2.length = label.length) :
    (GlueDataset.build encode padTokenId sentence1 sentence2 label
        maxLength).len = sentence1.length ∧
    ∀ i : Nat,
      i < (GlueDataset.build encode padTokenId sentence1 sentence2 label
            maxLength).len →
      ∃ it, (GlueDataset.build encode padTokenId sentence1 sentence2 label
                maxLength).getitem i = some it ∧ label[i]? = some it.label := by
  have hlabels := build_labels_eq encode padTokenId sentence1 sentence2 label
    maxLength h1 h2
  have hlen : (GlueDataset.build encode padTokenId sentence1 sentence2 label
      maxLength).len = sentence1.length := by
    simp [GlueDataset.build, GlueDataset.len, List.length_zip]; omega
  refine ⟨hlen, ?_⟩
  intro i hi
  rw [hlen] at hi
  have hiin : i < (GlueDataset.build encode padTokenId sentence1 sentence2
      label maxLength).inputs.length := by
    simp only [GlueDataset.build, List.length_map, List.length_zip]
    omega
  have hilab : i < label.length := by omega
  have hpyi : pyGet (GlueDataset.build encode padTokenId sentence1 sentence2
      label maxLength).inputs (i : Int)
      = some ((GlueDataset.build encode padTokenId sentence1 sentence2 label
          maxLength).inputs.get ⟨i, hiin⟩) := by
    rw [pyGet_nonneg _ _ (by omega)]
    simp [List.getElem?_eq_getElem hiin]
  have hpyl : pyGet (GlueDataset.build encode padTokenId sentence1 sentence2
      label maxLength).labels (i : Int) = some (label.get ⟨i, hilab⟩) := by
    rw [pyGet_nonneg _ _ (by omega), hlabels]
    simp [List.getElem?_eq_getElem hilab]
  refine ⟨{ inputIds := squeeze0 ((GlueDataset.build encode padTokenId
              sentence1 sentence2 label
              maxLength).inputs.get ⟨i, hiin⟩).inputIds
            attentionMask := squeeze0 ((GlueDataset.build encode padTokenId
              sentence1 sentence2 label
              maxLength).inputs.get ⟨i, hiin⟩).attentionMask
            label := label.get ⟨i, hilab⟩ }, ?_,
    by simp [List.getElem?_eq_getElem hilab]⟩
  unfold GlueDataset.getitem
  rw [hpyi, hpyl]
  rfl

/-- Claim C8: indexing a dataset at any index at or beyond its size raises
`IndexError` (modelled as `none`) rather than returning a record. -/
theorem getitem_out_of_range (ds : GlueDataset) (idx : Int)
    (h : (ds.len : Int) ≤ idx) : ds.getitem idx = none := by
  have h0 : 0 ≤ idx := le_trans (Int.natCast_nonneg _) h
  have hge : ds.inputs.length ≤ idx.toNat := by
    unfold GlueDataset.len at h; omega
  unfold GlueDataset.getitem
  rw [pyGet_nonneg _ _ h0, List.getElem?_eq_none hge]
  rfl

theorem build_labels_length (encode : String → String → List Nat)
    (padTokenId : Nat) (sentence1 sentence2 : List String) (label : List Nat)
    (maxLength : Nat) :
    (GlueDataset.build encode padTokenId sentence1 sentence2 label
        maxLength).labels.length
      = (GlueDataset.build encode padTokenId sentence1 sentence2 label
          maxLength).inputs.length := by
  simp [GlueDataset.build]

/-- Claim C10: for a negative index in `[-size, -1]`, `__getitem__` does not
fail and returns the record at position `size + idx`, by Python list
indexing semantics. -/
theorem getitem_negative_index (encode : String → String → List Nat)
    (padTokenId : Nat) (sentence1 sentence2 : List String) (label : List Nat)
    (maxLength : Nat) (idx : Int)
    (hlo : -((GlueDataset.build encode padTokenId sentence1 sentence2 label
        maxLength).len : Int) ≤ idx)
    (hhi : idx < 0) :
    (GlueDataset.build encode padTokenId sentence1 sentence2 label
        maxLength).getitem idx
      = (GlueDataset.build encode padTokenId sentence1 sentence2 label
          maxLength).getitem
          (((GlueDataset.build encode padTokenId sentence1 sentence2 label
              maxLength).len : Int) + idx) ∧
    ((GlueDataset.build encode padTokenId sentence1 sentence2 label
        maxLength).getitem idx).isSome = true := by
  have hll := build_labels_length encode padTokenId sentence1 sentence2 label
    maxLength
  have hlo' : 0 ≤ ((GlueDataset.build encode padTokenId sentence1 sentence2
      label maxLength).inputs.length : Int) + idx := by
    unfold GlueDataset.len at hlo; omega
  have hlt : (((GlueDataset.build encode padTokenId sentence1 sentence2 label
      maxLength).inputs.length : Int) + idx).toNat
      < (GlueDataset.build encode padTokenId sentence1 sentence2 label
          maxLength).inputs.length := by omega
  have hpi := pyGet_neg (GlueDataset.build encode padTokenId sentence1
    sentence2 label maxLength).inputs idx hhi hlo'
  have hpl := pyGet_neg (GlueDataset.build encode padTokenId sentence1
    sentence2 label maxLength).labels idx hhi (by rw [hll]; exact hlo')
  have hpi' := pyGet_nonneg (GlueDataset.build encode padTokenId sentence1
    sentence2 label maxLength).inputs
    (((GlueDataset.build encode padTokenId sentence1 sentence2 label
        maxLength).len : Int) + idx) (by unfold GlueDataset.len; omega)
  have hpl' := pyGet_nonneg (GlueDataset.build encode padTokenId sentence1
    sentence2 label maxLength).labels
    (((GlueDataset.build encode padTokenId sentence1 sentence2 label
        maxLength).len : Int) + idx) (by unfold GlueDataset.len; omega)
  constructor
  · unfold GlueDataset.getitem
    rw [hpi, hpl, hpi', hpl', hll]
    unfold GlueDataset.len
    rfl
  · unfold GlueDataset.getitem
    rw [hpi, hpl, hll]
    rw [List.getElem?_eq_getElem hlt,
      List.getElem?_eq_getElem (by rw [hll]; exact hlt)]
    rfl

theorem c1_witness :
    (GlueDataset.build (fun _ _ => [5, 6, 7, 8, 9]) 0 ["a"] ["b"] [1]
        4).getitem 0
      = some { inputIds := [5, 6, 7, 8], attentionMask := [1, 1, 1, 1]
               label := 1 } ∧
    (([5, 6, 7, 8] : List Nat).length = 4 ∧
      ([1, 1, 1, 1] : List Nat).length = 4) :=
  ⟨by decide,
    getitem_lengths_eq_maxLength (fun _ _ => [5, 6, 7, 8, 9]) 0 ["a"] ["b"]
      [1] 4 0
      { inputIds := [5, 6, 7, 8], attentionMask := [1, 1, 1, 1], label := 1 }
      (by decide)⟩

theorem c7_witness :
    ((["a", "c"] : List String).length = (["b", "d"] : List String).length ∧
      (["b", "d"] : List String).length = ([1, 0] : List Nat).length) ∧
    ((GlueDataset.build (fun _ _ => [5, 6]) 0 ["a", "c"] ["b", "d"] [1, 0]
        4).len = (["a", "c"] : List String).length ∧
      ∀ i : Nat,
        i < (GlueDataset.build (fun _ _ => [5, 6]) 0 ["a", "c"] ["b", "d"]
              [1, 0] 4).len →
        ∃ it, (GlueDataset.build (fun _ _ => [5, 6]) 0 ["a", "c"] ["b", "d"]
                  [1, 0] 4).getitem i = some it ∧
          ([1, 0] : List Nat)[i]? = some it.label) :=
  ⟨⟨rfl, rfl⟩,
    len_and_labels_match (fun _ _ => [5, 6]) 0 ["a", "c"] ["b", "d"] [1, 0] 4
      rfl rfl⟩

theorem c8_witness :
    ((GlueDataset.mk [⟨[[7, 7]], [[1, 1]]⟩] [1]).len : Int) ≤ 5 ∧
    (GlueDataset.mk [⟨[[7, 7]], [[1, 1]]⟩] [1]).getitem 5 = none :=
  ⟨by decide, getitem_out_of_range (GlueDataset.mk [⟨[[7, 7]], [[1, 1]]⟩] [1])
    5 (by decide)⟩

theorem c10_witness :
    (-(((GlueDataset.build (fun _ _ => [5, 6]) 0 ["a", "c"] ["b", "d"] [1, 0]
          4).len : Int)) ≤ -1 ∧ (-1 : Int) < 0) ∧
    ((GlueDataset.build (fun _ _ => [5, 6]) 0 ["a", "c"] ["b", "d"] [1, 0]
        4).getitem (-1)
      = (GlueDataset.build (fun _ _ => [5, 6]) 0 ["a", "c"] ["b", "d"] [1, 0]
          4).getitem
          (((GlueDataset.build (fun _ _ => [5, 6]) 0 ["a", "c"] ["b", "d"]
              [1, 0] 4).len : Int) + -1) ∧
      ((GlueDataset.build (fun _ _ => [5, 6]) 0 ["a", "c"] ["b", "d"] [1, 0]
          4).getitem (-1)).isSome = true) :=
  ⟨⟨by decide, by decide⟩,
    getitem_negative_index (fun _ _ => [5, 6]) 0 ["a", "c"] ["b", "d"] [1, 0]
      4 (-1) (by decide) (by decide)⟩

/-- The base transformer applied as
`self.base_model(input_ids, attention_mask=attention_mask).last_hidden_state`:
an opaque external mapping a `[B, L]` id tensor and its mask to a
`[B, L, H]` hidden-state tensor. -/
def BaseModel : Type :=
  List (List Nat) → List (List Nat) → List (List (List ℚ))

/-- Constant `num_labels = 2  # Adjust as per your task` -/
def num_labels : Nat := 2

/-- State of a `CustomClassifier` instance: the base model (its forward
function and its named parameters, the latter opaque but carried for
`state_dict`), the `nn.Dropout(0.1)` probability, and the
`nn.Linear(hidden_size, num_labels)` weight and bias. -/
structure CustomClassifier where
  baseModel : BaseModel
  baseParams : List (String × List (List ℚ))
  dropoutP : ℚ
  weight : List (List ℚ)
  bias : List ℚ

/-- Constructor `CustomClassifier.__init__(base_model, num_labels)`: store the base model
and build `nn.Sequential(nn.Dropout(0.1), nn.Linear(hidden_size, num_labels))`.
`initW`/`initB` stand for PyTorch's opaque random initialization; the
`Linear` weight has shape `[numLabels, hiddenSize]` and the bias
`[numLabels]`. -/
def CustomClassifier.init (baseModel : BaseModel)
    (baseParams : List (String × List (List ℚ)))
    (hiddenSize numLabels : Nat)
    (initW : Nat → Nat → ℚ) (initB : Nat → ℚ) : CustomClassifier :=
  { baseModel := baseModel
    baseParams := baseParams
    dropoutP := 1 / 10
    weight := (List.range numLabels).map fun i =>
      (List.range hiddenSize).map (initW i)
    bias := (List.range numLabels).map initB }

/-- Layer `nn.Dropout(p)` applied to one vector: in training mode each coordinate
is kept (and scaled by `1 / (1 - p)`) or zeroed according to the RNG draw
`keep`; in evaluation mode dropout is the identity. -/
def dropoutRun (training : Bool) (p : ℚ) (keep : Nat → Bool)
    (x : List ℚ) : List ℚ :=
  if training then
    x.mapIdx fun i xi => if keep i then xi / (1 - p) else 0
  else x

/-- Dot product of a weight row with an input vector. -/
def dot (w x : List ℚ) : ℚ := ((w.zip x).map fun p => p.1 * p.2).sum

/-- Layer `nn.Linear` applied to one vector: one output coordinate per weight row,
`w · x + b`. -/
def linearRun (weight : List (List ℚ)) (bias : List ℚ) (x : List ℚ) : List ℚ :=
  (weight.zip bias).map fun wb => dot wb.1 x + wb.2

/-- Method `CustomClassifier.forward(input_ids, attention_mask)`: run the base
model, extract `last_hidden_state`, take `last_hidden_state[:, 0, :]` (the
first-token state for each batch row; an index failure if the sequence
dimension is empty, hence `Option`), and pass the pooled states through
`self.classifier = Sequential(Dropout(0.1), Linear(hidden_size, num_labels))`.
`training` is the module's mode (`model.train()` / `model.eval()`); `keep`
is the per-row dropout RNG draw. -/
def CustomClassifier.forward (m : CustomClassifier) (training : Bool)
    (keep : Nat → Nat → Bool) (inputIds attentionMask : List (List Nat)) :
    Option (List (List ℚ)) := do
  let lastHiddenState := m.baseModel inputIds attentionMask
  let clsTokenState ← lastHiddenState.mapM List.head?
  pure (clsTokenState.mapIdx fun b v =>
    linearRun m.weight m.bias (dropoutRun training m.dropoutP (keep b) v))

theorem mapM_some_length {α β : Type} {f : α → Option β} :
    ∀ {xs : List α} {ys : List β}, xs.mapM f = some ys →
      ys.length = xs.length := by
  intro xs
  induction xs with
  | nil =>
    intro ys h
    simp only [List.mapM_nil, pure, Option.some_inj] at h
    simp [← h]
  | cons x xs ih =>
    intro ys h
    rw [List.mapM_cons] at h
    obtain ⟨y, _, h⟩ := Option.bind_eq_some.mp h
    obtain ⟨ys', hys', h⟩ := Option.bind_eq_some.mp h
    simp only [pure, Option.some_inj] at h
    simp [← h, ih hys']

theorem length_linearRun (weight : List (List ℚ)) (bias : List ℚ)
    (x : List ℚ) :
    (linearRun weight bias x).length = min weight.length bias.length := by
  simp [linearRun, List.length_zip]

/-- Claim C5: for an input batch of size `B` (and a base encoder that
preserves the batch dimension), `CustomClassifier.forward` returns exactly
`B` logit vectors, each of length `num_labels` (2 here). -/
theorem forward_batch_shape (baseModel : BaseModel)
    (baseParams : List (String × List (List ℚ))) (hiddenSize : Nat)
    (initW : Nat → Nat → ℚ) (initB : Nat → ℚ) (training : Bool)
    (keep : Nat → Nat → Bool) (inputIds attentionMask : List (List Nat))
    (out : List (List ℚ))
    (hB : (baseModel inputIds attentionMask).length = inputIds.length)
    (h : (CustomClassifier.init baseModel baseParams hiddenSize num_labels
            initW initB).forward training keep inputIds attentionMask
          = some out) :
    out.length = inputIds.length ∧ ∀ v ∈ out, v.length = num_labels := by
  unfold CustomClassifier.forward at h
  obtain ⟨cls, hcls, h⟩ := Option.bind_eq_some.mp h
  simp only [pure, Option.some_inj] at h
  have hB' : ((CustomClassifier.init baseModel baseParams hiddenSize
      num_labels initW initB).baseModel inputIds attentionMask).length
      = inputIds.length := hB
  have hlen : cls.length = inputIds.length := by
    rw [mapM_some_length hcls, hB']
  constructor
  · simp [← h, hlen]
  · intro v hv
    rw [← h] at hv
    simp only [List.mem_mapIdx] at hv
    obtain ⟨b, hb, hv⟩ := hv
    rw [← hv, length_linearRun]
    simp [CustomClassifier.init]

/-- A tiny concrete stand-in for the base model, used only to instantiate
hypotheses at concrete inputs: batch dimension preserved, one token per
row, hidden size 2. -/
def demoBase : BaseModel := fun ids _ => ids.map fun _ => [[(1 : ℚ), 0]]

theorem c5_witness :
    (demoBase [[3, 4], [5, 6]] [[1, 1], [1, 1]]).length
      = ([[3, 4], [5, 6]] : List (List Nat)).length ∧
    (CustomClassifier.init demoBase [] 2 num_labels (fun _ _ => 1)
        (fun _ => 0)).forward false (fun _ _ => true) [[3, 4], [5, 6]]
        [[1, 1], [1, 1]]
      = some [[1, 1], [1, 1]] ∧
    (([[1, 1], [1, 1]] : List (List ℚ)).length
        = ([[3, 4], [5, 6]] : List (List Nat)).length ∧
      ∀ v ∈ ([[1, 1], [1, 1]] : List (List ℚ)), v.length = num_labels) :=
  ⟨rfl, by
      simp [CustomClassifier.forward, CustomClassifier.init, demoBase,
        num_labels, linearRun, dot, dropoutRun, List.range_succ,
        List.mapM, List.mapM.loop, List.mapIdx, List.mapIdx.go],
    forward_batch_shape demoBase [] 2 (fun _ _ => 1) (fun _ => 0) false
      (fun _ _ => true) [[3, 4], [5, 6]] [[1, 1], [1, 1]] [[1, 1], [1, 1]]
      rfl
      (by simp [CustomClassifier.forward, CustomClassifier.init, demoBase,
        num_labels, linearRun, dot, dropoutRun, List.range_succ,
        List.mapM, List.mapM.loop, List.mapIdx, List.mapIdx.go])⟩

theorem option_do_map {α β : Type} (o : Option α) (f : α → β) :
    (do let x ← o; pure (f x) : Option β) = o.map f := by
  cases o <;> rfl

/-- The forward pass as the spec describes it, for comparison with
`CustomClassifier.forward`: obtain the per-token hidden states from the base
encoder, select the hidden state at the first sequence position of each row
as the pooled representation, apply dropout, then apply the single linear
map to `num_labels` outputs. -/
def specForwardPass (m : CustomClassifier) (training : Bool)
    (keep : Nat → Nat → Bool) (inputIds attentionMask : List (List Nat)) :
    Option (List (List ℚ)) :=
  ((m.baseModel inputIds attentionMask).mapM List.head?).map fun pooled =>
    pooled.mapIdx fun b v =>
      linearRun m.weight m.bias (dropoutRun training m.dropoutP (keep b) v)

/-- Claim C6: `CustomClassifier.forward` computes exactly the spec's
pipeline - base encoder, first-position pooling, dropout, then one linear
map - and dropout is the identity outside training mode. -/
theorem forward_structure (m : CustomClassifier) (training : Bool)
    (keep : Nat → Nat → Bool) (inputIds attentionMask : List (List Nat)) :
    m.forward training keep inputIds attentionMask
      = specForwardPass m training keep inputIds attentionMask ∧
    ∀ (p : ℚ) (k : Nat → Bool) (x : List ℚ), dropoutRun false p k x = x := by
  constructor
  · unfold CustomClassifier.forward specForwardPass
    exact option_do_map _ _
  · intro p k x
    rfl

/-- Call `model.state_dict()` at the `torch.save` call site, per PyTorch module
semantics: the parameters of every registered submodule, keyed with the
submodule path - all base-model entries under the `base_model.` prefix
followed by the head's `classifier.1.weight` and `classifier.1.bias`
(index 1 is the `Linear` inside the `Sequential`; `Dropout` holds no
parameters; the bias vector is carried as a one-row matrix). -/
def CustomClassifier.state_dict (m : CustomClassifier) :
    List (String × List (List ℚ)) :=
  (m.baseParams.map fun kv => ("base_model." ++ kv.1, kv.2)) ++
    [("classifier.1.weight", m.weight), ("classifier.1.bias", [m.bias])]

/-- The parameter state of the classification head alone
(`model.classifier`), for comparison with what `torch.save` persists. -/
def CustomClassifier.headState (m : CustomClassifier) :
    List (String × List (List ℚ)) :=
  [("classifier.1.weight", m.weight), ("classifier.1.bias", [m.bias])]

/-- Call `torch.save(model.state_dict(), "./my_custom_model_falcon.pt")`: the
payload persisted to the local file path at the end of the run. -/
def savedArtifact (m : CustomClassifier) : List (String × List (List ℚ)) :=
  m.state_dict

/-- Claim C2, counterexample: for a wrapper whose base model has any
parameter at all, the persisted payload is not the head's parameter state -
it also contains the base model's entries. -/
theorem saved_artifact_not_head_only :
    savedArtifact
        { baseModel := fun _ _ => []
          baseParams := [("h.0.weight", [[(1 : ℚ)]])]
          dropoutP := 1 / 10
          weight := [[(0 : ℚ), 0]]
          bias := [(0 : ℚ)] }
      ≠ CustomClassifier.headState
        { baseModel := fun _ _ => []
          baseParams := [("h.0.weight", [[(1 : ℚ)]])]
          dropoutP := 1 / 10
          weight := [[(0 : ℚ), 0]]
          bias := [(0 : ℚ)] } := by
  decide

/-- Claim C2 as amended: the artifact persisted at the end of the run is the
full wrapper's parameter state - every base-model parameter under the
`base_model.` prefix together with the head's parameters, the head's state
forming the final entries. -/
theorem saved_artifact_full_state (m : CustomClassifier) :
    savedArtifact m
      = (m.baseParams.map fun kv => ("base_model." ++ kv.1, kv.2)) ++
          m.headState ∧
    m.headState.IsSuffix (savedArtifact m) := by
  exact ⟨rfl, List.suffix_append _ _⟩

/-- The five statements executed for each batch of the training loop, in
source order. -/
inductive TrainOp where
  | zeroGrad
  | forwardPass
  | lossCompute
  | backwardPass
  | optimStep
deriving DecidableEq

/-- The parameter state reached by `model.parameters()`: per PyTorch module
semantics this is every parameter of the registered submodules - the whole
`base_model` (the notebook never sets `requires_grad = False` on it)
together with the `classifier` head.  `AdamW(model.parameters(), lr=5e-5)`
therefore optimizes both components. -/
structure ModelParams where
  base : List ℚ
  head : List ℚ
deriving DecidableEq

/-- Mutable state threaded through the training loop: the parameters, the
accumulated gradients (`none` right after `optimizer.zero_grad()`), and a
log of the statements executed. -/
structure TrainState where
  params : ModelParams
  grads : Option ModelParams
  log : List TrainOp

/-- Statement `optimizer.zero_grad()`. -/
def zeroGradStep (st : TrainState) : TrainState :=
  { st with grads := none, log := st.log ++ [TrainOp.zeroGrad] }

/-- Statement `logits = model(input_ids, attention_mask)`: the forward pass through
the classification wrapper (its numeric output does not influence the
loop's control flow, so only the event is logged). -/
def forwardStep (st : TrainState) : TrainState :=
  { st with log := st.log ++ [TrainOp.forwardPass] }

/-- Statement `loss = cross_entropy(logits, labels)`: cross-entropy of the logits
against the true labels (again only control-flow relevant as an event:
no checkpointing, early stopping or clipping reads the loss value). -/
def lossStep (st : TrainState) : TrainState :=
  { st with log := st.log ++ [TrainOp.lossCompute] }

/-- Statement `loss.backward()`: autograd computes a gradient for every parameter
reachable in the graph - the full `ModelParams`, base component included,
since nothing is frozen.  `gradFn` is the opaque differentiation of the
model at the current parameters and batch. -/
def backwardStep {B : Type} (gradFn : ModelParams → B → ModelParams)
    (batch : B) (st : TrainState) : TrainState :=
  { st with grads := some (gradFn st.params batch)
            log := st.log ++ [TrainOp.backwardPass] }

/-- Statement `optimizer.step()`: the (opaque) AdamW update `upd` applied to the
optimizer's parameter list - all of `model.parameters()` - using the
accumulated gradients. -/
def optimStepRun (upd : ModelParams → ModelParams → ModelParams)
    (st : TrainState) : TrainState :=
  { st with
    params := match st.grads with
      | some g => upd st.params g
      | none => st.params
    log := st.log ++ [TrainOp.optimStep] }

/-- The body of `for batch in train_loader`, in source order. -/
def trainBatch {B : Type} (gradFn : ModelParams → B → ModelParams)
    (upd : ModelParams → ModelParams → ModelParams)
    (st : TrainState) (batch : B) : TrainState :=
  optimStepRun upd (backwardStep gradFn batch (lossStep (forwardStep
    (zeroGradStep st))))

/-- Constant `num_epochs = 3`. -/
def num_epochs : Nat := 3

/-- One epoch: `for batch in train_loader` (`model.train()` toggles the
mode flag only and is not parameter-relevant). -/
def trainEpoch {B : Type} (gradFn : ModelParams → B → ModelParams)
    (upd : ModelParams → ModelParams → ModelParams)
    (st : TrainState) (batches : List B) : TrainState :=
  batches.foldl (trainBatch gradFn upd) st

/-- Loop `for epoch in range(num_epochs)`: the whole training cell. -/
def trainLoop {B : Type} (gradFn : ModelParams → B → ModelParams)
    (upd : ModelParams → ModelParams → ModelParams)
    (st : TrainState) (batches : List B) : TrainState :=
  (List.range num_epochs).foldl
    (fun s _ => trainEpoch gradFn upd s batches) st

/-- The per-batch statement sequence the spec prescribes. -/
def batchOps : List TrainOp :=
  [TrainOp.zeroGrad, TrainOp.forwardPass, TrainOp.lossCompute,
    TrainOp.backwardPass, TrainOp.optimStep]

theorem trainBatch_log {B : Type} (gradFn : ModelParams → B → ModelParams)
    (upd : ModelParams → ModelParams → ModelParams)
    (st : TrainState) (batch : B) :
    (trainBatch gradFn upd st batch).log = st.log ++ batchOps := by
  simp [trainBatch, optimStepRun, backwardStep, lossStep, forwardStep,
    zeroGradStep, batchOps]

theorem trainEpoch_log {B : Type} (gradFn : ModelParams → B → ModelParams)
    (upd : ModelParams → ModelParams → ModelParams) (batches : List B) :
    ∀ st : TrainState, (trainEpoch gradFn upd st batches).log
      = st.log ++ (List.replicate batches.length batchOps).flatten := by
  induction batches with
  | nil => intro st; simp [trainEpoch]
  | cons b bs ih =>
    intro st
    show (trainEpoch gradFn upd (trainBatch gradFn upd st b) bs).log = _
    rw [ih, trainBatch_log]
    simp [List.replicate_succ]

/-- Claim C3: the training loop executes, for every batch of every epoch,
exactly the sequence zero-grad, forward, loss, backward, optimizer step;
it runs a fixed `num_epochs = 3` epochs (the trace shape depends only on
the batch count, never on loss values); and each batch's optimizer step
feeds the whole parameter state - base model included, not frozen -
through the update, using gradients taken on the whole parameter state. -/
theorem train_loop_trace {B : Type} (gradFn : ModelParams → B → ModelParams)
    (upd : ModelParams → ModelParams → ModelParams)
    (st : TrainState) (batches : List B) :
    (trainLoop gradFn upd st batches).log
      = st.log ++ (List.replicate num_epochs
          ((List.replicate batches.length batchOps).flatten)).flatten ∧
    num_epochs = 3 ∧
    ∀ (s : TrainState) (b : B),
      (trainBatch gradFn upd s b).params = upd s.params (gradFn s.params b) := by
  refine ⟨?_, rfl, fun s b => rfl⟩
  have h3 : trainLoop gradFn upd st batches
      = trainEpoch gradFn upd (trainEpoch gradFn upd
          (trainEpoch gradFn upd st batches) batches) batches := rfl
  rw [h3, trainEpoch_log, trainEpoch_log, trainEpoch_log]
  show st.log ++ _ ++ _ ++ _ = _
  simp [num_epochs, List.replicate_succ]

/-- Operation `torch.argmax(logits, dim=-1)` on one row: the index of the first
maximal entry.  (On an empty tensor `torch.argmax` raises; every logits
row here has `num_labels = 2` entries, so the `[]` case is unreachable
and returns 0.) -/
def argmax (l : List ℚ) : Nat :=
  match l with
  | [] => 0
  | x :: xs => argmaxAux xs 1 0 x
where
  argmaxAux : List ℚ → Nat → Nat → ℚ → Nat
    | [], _, best, _ => best
    | x :: xs, i, best, bv =>
      if bv < x then argmaxAux xs (i + 1) i x
      else argmaxAux xs (i + 1) best bv

/-- Loader `DataLoader(dataset, batch_size=n)` without shuffling: the dataset's
items in order, grouped into consecutive batches of at most `n`.
(`DataLoader` requires a positive batch size; the `max n 1` guard only
makes the recursion total - it is `n` for every batch size used here.) -/
def chunks {α : Type} (n : Nat) (l : List α) : List (List α) :=
  match l with
  | [] => []
  | x :: xs => (x :: xs).take (max n 1) :: chunks n ((x :: xs).drop (max n 1))
termination_by l.length
decreasing_by
  simp only [List.length_drop, List.length_cons]
  omega

theorem chunks_flatten {α : Type} (n : Nat) (l : List α) :
    (chunks n l).flatten = l := by
  have main : ∀ (k : Nat) (l : List α), l.length ≤ k →
      (chunks n l).flatten = l := by
    intro k
    induction k with
    | zero =>
      intro l hl
      have hnil : l = [] := List.eq_nil_of_length_eq_zero (by omega)
      rw [hnil]
      simp [chunks]
    | succ k ih =>
      intro l hl
      match l with
      | [] => simp [chunks]
      | x :: xs =>
        simp only [chunks, List.flatten_cons]
        rw [ih ((x :: xs).drop (max n 1)) ?_, List.take_append_drop]
        simp only [List.length_drop, List.length_cons]
        simp only [List.length_cons] at hl
        omega
  exact main l.length l le_rfl

/-- Constant `batch_size=8` as passed to both loaders. -/
def batch_size : Nat := 8

/-- State threaded through the evaluation cell: the model parameters (of
opaque type `P`), the module mode flag, and `total_eval_accuracy`. -/
structure EvalState (P : Type) where
  params : P
  training : Bool
  totalEvalAccuracy : Nat

/-- Call `model.eval()`: clears the training-mode flag; touches no parameter. -/
def modelEvalMode {P : Type} (st : EvalState P) : EvalState P :=
  { st with training := false }

/-- The body of `for batch in eval_loader` under `torch.no_grad()`:
`logits = model(input_ids, attention_mask)` at the current parameters
(`mdl` is the model's whole-batch forward), `predictions =
torch.argmax(logits, dim=-1)`, then `total_eval_accuracy +=
torch.sum(predictions == labels).item()`.  No statement writes to the
parameters. -/
def evalStep {P : Type} (mdl : P → List Item → List (List ℚ))
    (st : EvalState P) (batch : List Item) : EvalState P :=
  let logits := mdl st.params batch
  let predictions := logits.map argmax
  let labels := batch.map Item.label
  { st with totalEvalAccuracy := st.totalEvalAccuracy +
      ((predictions.zip labels).filter fun pl => pl.1 == pl.2).length }

/-- The evaluation loop: `model.eval()` then `for batch in eval_loader`. -/
def evalLoop {P : Type} (mdl : P → List Item → List (List ℚ))
    (st : EvalState P) (batches : List (List Item)) : EvalState P :=
  batches.foldl (evalStep mdl) (modelEvalMode st)

/-- The whole evaluation cell: `total_eval_accuracy = 0`, the loop over the
loader's in-order size-8 batches of `items` at parameters `p` (starting in
mode flag `training`, which `model.eval()` clears), and finally
`avg_accuracy = total_eval_accuracy / len(eval_loader.dataset)` (the
notebook's float division is modelled exactly over `ℚ`). -/
def evalAccuracy {P : Type} (mdl : P → List Item → List (List ℚ))
    (p : P) (training : Bool) (items : List Item) : ℚ :=
  ((evalLoop mdl ⟨p, training, 0⟩
      (chunks batch_size items)).totalEvalAccuracy : ℚ)
    / (items.length : ℚ)

/-- Claim C9: the evaluation loop is read-only with respect to the model
parameters - the parameter state after the loop equals the parameter state
before it, for every evaluation batch list. -/
theorem eval_preserves_params {P : Type}
    (mdl : P → List Item → List (List ℚ)) (st : EvalState P)
    (batches : List (List Item)) :
    (evalLoop mdl st batches).params = st.params := by
  suffices h : ∀ s : EvalState P, (batches.foldl (evalStep mdl) s).params
      = s.params by
    exact h (modelEvalMode st)
  induction batches with
  | nil => intro s; rfl
  | cons b bs ih =>
    intro s
    show (bs.foldl (evalStep mdl) (evalStep mdl s b)).params = s.params
    rw [ih]
    rfl

theorem evalLoop_total {P : Type} (mdl : P → List Item → List (List ℚ))
    (batches : List (List Item)) :
    ∀ s : EvalState P, (batches.foldl (evalStep mdl) s).totalEvalAccuracy
      = s.totalEvalAccuracy + (batches.map fun b =>
          ((((mdl s.params b).map argmax).zip (b.map Item.label)).filter
            fun pl => pl.1 == pl.2).length).sum := by
  induction batches with
  | nil => intro s; simp
  | cons b bs ih =>
    intro s
    show (bs.foldl (evalStep mdl) (evalStep mdl s b)).totalEvalAccuracy = _
    rw [ih (evalStep mdl s b)]
    have hp : (evalStep mdl s b).params = s.params := rfl
    have ht : (evalStep mdl s b).totalEvalAccuracy
        = s.totalEvalAccuracy +
          ((((mdl s.params b).map argmax).zip (b.map Item.label)).filter
            fun pl => pl.1 == pl.2).length := rfl
    rw [hp, ht]
    simp only [List.map_cons, List.sum_cons]
    omega

/-- The documented accuracy numerator: the count of examples whose arg-max
predicted label matches the ground-truth label. -/
def countCorrect (g : Item → List ℚ) (items : List Item) : Nat :=
  (items.filter fun it => argmax (g it) == it.label).length

theorem zip_map_filter_length {α β γ : Type} (f : α → β) (h : α → γ)
    (q : β → γ → Bool) : ∀ l : List α,
    (((l.map f).zip (l.map h)).filter fun pl => q pl.1 pl.2).length
      = (l.filter fun it => q (f it) (h it)).length := by
  intro l
  induction l with
  | nil => rfl
  | cons x xs ih =>
    by_cases hq : q (f x) (h x) = true <;>
      simp [List.filter_cons, hq, ih]

theorem countCorrect_flatten (g : Item → List ℚ) :
    ∀ bs : List (List Item),
      countCorrect g bs.flatten = (bs.map (countCorrect g)).sum := by
  intro bs
  induction bs with
  | nil => rfl
  | cons b bs ih =>
    simp [countCorrect, List.filter_append, ih]
    rfl

/-- Claim C4: the reported evaluation accuracy equals the count of examples
whose arg-max predicted label matches the ground truth, divided by the
evaluation dataset size, and lies in `[0, 1]`.  `g` is the model's
per-example logit function; the hypothesis says the whole-batch forward is
its per-example application. -/
theorem eval_accuracy_spec {P : Type} (mdl : P → List Item → List (List ℚ))
    (g : Item → List ℚ) (p : P) (training : Bool) (items : List Item)
    (hmap : ∀ b : List Item, mdl p b = b.map g)
    (hpos : 0 < items.length) :
    evalAccuracy mdl p training items
      = (countCorrect g items : ℚ) / (items.length : ℚ) ∧
    0 ≤ evalAccuracy mdl p training items ∧
    evalAccuracy mdl p training items ≤ 1 := by
  have hbatch : ∀ b : List Item,
      ((((mdl p b).map argmax).zip (b.map Item.label)).filter
        fun pl => pl.1 == pl.2).length = countCorrect g b := by
    intro b
    rw [hmap b, List.map_map]
    exact zip_map_filter_length (argmax ∘ g) Item.label
      (fun pb lb => pb == lb) b
  have htot : (evalLoop mdl ⟨p, training, 0⟩
      (chunks batch_size items)).totalEvalAccuracy = countCorrect g items := by
    unfold evalLoop
    rw [evalLoop_total]
    have hpe : (modelEvalMode (⟨p, training, 0⟩ : EvalState P)).params = p :=
      rfl
    have hte : EvalState.totalEvalAccuracy
        (modelEvalMode (⟨p, training, 0⟩ : EvalState P)) = 0 := rfl
    rw [hpe, hte]
    calc 0 + ((chunks batch_size items).map fun b =>
            ((((mdl p b).map argmax).zip (b.map Item.label)).filter
              fun pl => pl.1 == pl.2).length).sum
        = ((chunks batch_size items).map (countCorrect g)).sum := by
          rw [Nat.zero_add]
          congr 1
          exact List.map_congr_left fun b _ => hbatch b
      _ = countCorrect g (chunks batch_size items).flatten :=
          (countCorrect_flatten g _).symm
      _ = countCorrect g items := by rw [chunks_flatten]
  have hle : countCorrect g items ≤ items.length :=
    List.length_filter_le _ _
  have hq : evalAccuracy mdl p training items
      = (countCorrect g items : ℚ) / (items.length : ℚ) := by
    unfold evalAccuracy
    rw [htot]
  have hNpos : (0 : ℚ) < (items.length : ℚ) := by
    exact_mod_cast hpos
  refine ⟨hq, ?_, ?_⟩
  · rw [hq]
    positivity
  · rw [hq, div_le_one hNpos]
    exact_mod_cast hle

theorem c4_witness :
    (∀ b : List Item,
      (fun (_ : Unit) (b : List Item) =>
          b.map fun _ => [(1 : ℚ), 0]) () b
        = b.map fun _ => [(1 : ℚ), 0]) ∧
    0 < ([⟨[], [], 0⟩, ⟨[], [], 1⟩] : List Item).length ∧
    (evalAccuracy (fun (_ : Unit) (b : List Item) =>
          b.map fun _ => [(1 : ℚ), 0]) () true
        [⟨[], [], 0⟩, ⟨[], [], 1⟩]
      = (countCorrect (fun _ => [(1 : ℚ), 0])
          [⟨[], [], 0⟩, ⟨[], [], 1⟩] : ℚ)
        / (([⟨[], [], 0⟩, ⟨[], [], 1⟩] : List Item).length : ℚ) ∧
    0 ≤ evalAccuracy (fun (_ : Unit) (b : List Item) =>
          b.map fun _ => [(1 : ℚ), 0]) () true
        [⟨[], [], 0⟩, ⟨[], [], 1⟩] ∧
    evalAccuracy (fun (_ : Unit) (b : List Item) =>
          b.map fun _ => [(1 : ℚ), 0]) () true
        [⟨[], [], 0⟩, ⟨[], [], 1⟩] ≤ 1) :=
  ⟨fun _ => rfl, by decide,
    eval_accuracy_spec (fun (_ : Unit) (b : List Item) =>
        b.map fun _ => [(1 : ℚ), 0]) (fun _ => [(1 : ℚ), 0]) () true
      [⟨[], [], 0⟩, ⟨[], [], 1⟩] (fun _ => rfl) (by decide)⟩

end FalconTuning
